import Mathlib

/-!
Shallow embedding of the adaptive multi-resolution monitoring pipeline
(`src/utils/monitorData.ts`, `src/services/monitorService.ts`,
`src/components/MonitorChart.tsx`).

Timestamps and durations are integers (milliseconds).  JavaScript number
arithmetic on these quantities is modelled with exact rationals; `Math.random()`
draws are modelled as explicit parameters (a `Rng` record of draw streams), so
all statements hold for every outcome of the random source.
-/

/-- `Resolution` — the union type `'1d' | '1h' | '1m' | '30s'`. -/
inductive Resolution where
  | d1 | h1 | m1 | s30
deriving DecidableEq, Repr

/-- String label of a resolution, as it appears in cache keys. -/
def resolutionLabel : Resolution → String
  | .d1 => "1d"
  | .h1 => "1h"
  | .m1 => "1m"
  | .s30 => "30s"

/-- `RESOLUTION_INTERVALS` — milliseconds per sample for each resolution. -/
def RESOLUTION_INTERVALS : Resolution → ℤ
  | .d1 => 24 * 60 * 60 * 1000
  | .h1 => 60 * 60 * 1000
  | .m1 => 60 * 1000
  | .s30 => 30 * 1000

/-- `getResolutionForRange` from `monitorData.ts` (lines 107-134): the duration
is divided by the year/month/day/hour lengths and compared against 1. -/
def getResolutionForRange (start e : ℤ) : Resolution :=
  let duration : ℚ := ((e - start : ℤ) : ℚ)
  let durationInYears : ℚ := duration / (365 * 24 * 60 * 60 * 1000)
  let durationInMonths : ℚ := duration / (30 * 24 * 60 * 60 * 1000)
  let durationInDays : ℚ := duration / (24 * 60 * 60 * 1000)
  let durationInHours : ℚ := duration / (60 * 60 * 1000)
  if 1 ≤ durationInYears then .d1
  else if 1 ≤ durationInMonths then .h1
  else if 1 ≤ durationInDays then .m1
  else if 1 ≤ durationInHours then .m1
  else .s30

/-- The division-free form of `getResolutionForRange`. -/
theorem getResolutionForRange_eq (start e : ℤ) :
    getResolutionForRange start e =
      (if (31536000000 : ℤ) ≤ e - start then .d1
       else if (2592000000 : ℤ) ≤ e - start then .h1
       else if (86400000 : ℤ) ≤ e - start then .m1
       else if (3600000 : ℤ) ≤ e - start then .m1
       else .s30) := by
  have key : ∀ c : ℚ, ∀ ci : ℤ, 0 < c → c = (ci : ℚ) →
      ((1 : ℚ) ≤ ((e - start : ℤ) : ℚ) / c ↔ ci ≤ e - start) := by
    intro c ci hc hci
    rw [one_le_div hc, hci, Int.cast_le]
  have h1 := key (365 * 24 * 60 * 60 * 1000) 31536000000 (by norm_num) (by norm_num)
  have h2 := key (30 * 24 * 60 * 60 * 1000) 2592000000 (by norm_num) (by norm_num)
  have h3 := key (24 * 60 * 60 * 1000) 86400000 (by norm_num) (by norm_num)
  have h4 := key (60 * 60 * 1000) 3600000 (by norm_num) (by norm_num)
  simp only [getResolutionForRange, h1, h2, h3, h4]

/-- C1: For every window with non-negative duration `d = end - start`,
`getResolutionForRange` returns `1d` iff `d ≥ 365` days, `1h` iff
`30d ≤ d < 365d`, `1m` iff `1h ≤ d < 30d`, and `30s` iff `0 ≤ d < 1h`;
in particular `d = 0` yields `30s` and the boundary durations exactly one hour,
30 days and 365 days map to `1m`, `1h` and `1d`. -/
theorem c1_resolution_thresholds (start e : ℤ) (hd : 0 ≤ e - start) :
    (getResolutionForRange start e = .d1 ↔ 31536000000 ≤ e - start)
    ∧ (getResolutionForRange start e = .h1 ↔ 2592000000 ≤ e - start ∧ e - start < 31536000000)
    ∧ (getResolutionForRange start e = .m1 ↔ 3600000 ≤ e - start ∧ e - start < 2592000000)
    ∧ (getResolutionForRange start e = .s30 ↔ 0 ≤ e - start ∧ e - start < 3600000)
    ∧ getResolutionForRange 0 0 = .s30
    ∧ getResolutionForRange 0 3600000 = .m1
    ∧ getResolutionForRange 0 2592000000 = .h1
    ∧ getResolutionForRange 0 31536000000 = .d1 := by
  have hb0 : getResolutionForRange 0 0 = .s30 := by
    rw [getResolutionForRange_eq]; norm_num
  have hb1 : getResolutionForRange 0 3600000 = .m1 := by
    rw [getResolutionForRange_eq]; norm_num
  have hb2 : getResolutionForRange 0 2592000000 = .h1 := by
    rw [getResolutionForRange_eq]; norm_num
  have hb3 : getResolutionForRange 0 31536000000 = .d1 := by
    rw [getResolutionForRange_eq]; norm_num
  refine ⟨?_, ?_, ?_, ?_, hb0, hb1, hb2, hb3⟩ <;>
  · rw [getResolutionForRange_eq]
    split_ifs <;> simp <;> omega

/-- Witness for C1 at the concrete window `[0, 0]`. -/
theorem c1_resolution_thresholds_witness :
    (getResolutionForRange 0 0 = .d1 ↔ 31536000000 ≤ (0 : ℤ) - 0)
    ∧ (getResolutionForRange 0 0 = .h1 ↔ 2592000000 ≤ (0 : ℤ) - 0 ∧ (0 : ℤ) - 0 < 31536000000)
    ∧ (getResolutionForRange 0 0 = .m1 ↔ 3600000 ≤ (0 : ℤ) - 0 ∧ (0 : ℤ) - 0 < 2592000000)
    ∧ (getResolutionForRange 0 0 = .s30 ↔ 0 ≤ (0 : ℤ) - 0 ∧ (0 : ℤ) - 0 < 3600000)
    ∧ getResolutionForRange 0 0 = .s30
    ∧ getResolutionForRange 0 3600000 = .m1
    ∧ getResolutionForRange 0 2592000000 = .h1
    ∧ getResolutionForRange 0 31536000000 = .d1 :=
  c1_resolution_thresholds 0 0 (by norm_num)

/-- The two `Math.random()` draws consumed by `generateRandomValue` for point
`i` and metric index `j`, plus the per-metric draw used for the base value.
Modelling the random source as arbitrary streams makes every theorem below hold
for all outcomes of the random number source. -/
structure Rng where
  base : ℕ → ℚ
  noise1 : ℕ → ℕ → ℚ
  noise2 : ℕ → ℕ → ℚ

/-- `generateRandomValue` (lines 23-25): clamp the perturbed base into
`[0, 100]`.  `r1` and `r2` stand for the two `Math.random()` calls. -/
def generateRandomValue (base range volatility r1 r2 : ℚ) : ℚ :=
  max 0 (min 100 (base + (r1 - 1/2) * range + (r2 - 1/2) * volatility * range))

/-- `parseFloat(v.toFixed(1))`: rounding to one decimal place.  All rounded
values here are non-negative, where JavaScript `toFixed` agrees with
round-half-up. -/
def toFixed1 (q : ℚ) : ℚ := ((round (10 * q) : ℤ) : ℚ) / 10

/-- `getPointCount` (lines 28-40): `Math.ceil(duration / interval)` per
resolution. -/
def getPointCount (start e : ℤ) (resolution : Resolution) : ℤ :=
  let duration := e - start
  match resolution with
  | .s30 => ⌈((duration : ℤ) : ℚ) / ((RESOLUTION_INTERVALS .s30 : ℤ) : ℚ)⌉
  | .m1 => ⌈((duration : ℤ) : ℚ) / ((RESOLUTION_INTERVALS .m1 : ℤ) : ℚ)⌉
  | .h1 => ⌈((duration : ℤ) : ℚ) / ((RESOLUTION_INTERVALS .h1 : ℤ) : ℚ)⌉
  | .d1 => ⌈((duration : ℤ) : ℚ) / ((RESOLUTION_INTERVALS .d1 : ℤ) : ℚ)⌉

/-- A data point `{t, [metric]: value}`: a timestamp plus one value per
requested metric (an association list in request order). -/
structure MetricPoint where
  t : ℤ
  values : List (String × ℚ)
deriving DecidableEq

/-- `MetricsResponse`: a resolution tag plus the point sequence. -/
structure MetricsResponse where
  step : Resolution
  points : List MetricPoint
deriving DecidableEq

/-- Default metric set of `generateDataByResolution`. -/
def defaultMetricNames : List String :=
  ["cpu_1", "cpu_2", "cpu_3", "gpu_1", "gpu_2", "memory"]

/-- `const startTime = start || defaultStart`: JavaScript treats both
`undefined` and `0` as falsy, so a zero start is silently replaced by
`now - 365 days`. -/
def resolveStart (now : ℤ) : Option ℤ → ℤ
  | some s => if s = 0 then now - 365 * 24 * 60 * 60 * 1000 else s
  | none => now - 365 * 24 * 60 * 60 * 1000

/-- `const endTime = end || now`: `undefined` and `0` both fall back to
`now`. -/
def resolveEnd (now : ℤ) : Option ℤ → ℤ
  | some e => if e = 0 then now else e
  | none => now

/-- `metric.startsWith(p)`, written over the underlying character lists (the
same Boolean as `String.startsWith`, in a form the kernel can evaluate). -/
def strStartsWith (s p : String) : Bool := p.data.isPrefixOf s.data

/-- Per-series base value for metric `m` at metric index `j`
(lines 57-68). -/
def baseValue (rng : Rng) (j : ℕ) (m : String) : ℚ :=
  if strStartsWith m "cpu" then 30 + rng.base j * 20
  else if strStartsWith m "gpu" then 40 + rng.base j * 30
  else if m = "memory" then 60 + rng.base j * 20
  else 50 + rng.base j * 30

/-- Per-metric noise range (lines 79-86), default 15. -/
def metricRange (m : String) : ℚ :=
  if strStartsWith m "cpu" then (if m = "cpu_1" then 10 else if m = "cpu_2" then 8 else 12)
  else if strStartsWith m "gpu" then (if m = "gpu_1" then 15 else 12)
  else if m = "memory" then 8
  else 15

/-- `const defaultMetrics = metrics || [...]`: only `undefined` falls back; an
empty array is truthy in JavaScript and is kept as-is. -/
def genMetrics (metrics? : Option (List String)) : List String :=
  match metrics? with
  | some ms => ms
  | none => defaultMetricNames

/-- `pointCount` of `generateDataByResolution` (lines 53-54): the resolution
point count capped by `Math.min(·, 10000)`. -/
def genPointCount (now : ℤ) (resolution : Resolution)
    (start? end? : Option ℤ) : ℤ :=
  min (getPointCount (resolveStart now start?) (resolveEnd now end?) resolution)
    10000

/-- `const interval = (endTime - startTime) / (pointCount - 1 || 1)`
(line 72). -/
def genInterval (now : ℤ) (resolution : Resolution)
    (start? end? : Option ℤ) : ℚ :=
  ((resolveEnd now end? - resolveStart now start? : ℤ) : ℚ) /
    (if genPointCount now resolution start? end? - 1 = 0 then 1
     else ((genPointCount now resolution start? end? - 1 : ℤ) : ℚ))

/-- The value written at point `i` for metric `m` with metric index `j`
(line 87). -/
def genValue (rng : Rng) (i j : ℕ) (m : String) : ℚ :=
  toFixed1 (generateRandomValue (baseValue rng j m) (metricRange m) (1/10)
    (rng.noise1 i j) (rng.noise2 i j))

/-- Point `i` of the generated series (lines 74-91). -/
def genPoint (now : ℤ) (rng : Rng) (resolution : Resolution)
    (start? end? : Option ℤ) (metrics? : Option (List String)) (i : ℕ) :
    MetricPoint :=
  { t := round (((resolveStart now start? : ℤ) : ℚ) +
      (i : ℚ) * genInterval now resolution start? end?)
    values := (genMetrics metrics?).enum.map fun jm =>
      (jm.2, genValue rng i jm.1 jm.2) }

/-- `generateDataByResolution` (lines 43-97).  `now` stands for `Date.now()`;
`start?`, `end?` and `metrics?` are the optional arguments. -/
def generateDataByResolution (now : ℤ) (rng : Rng) (resolution : Resolution)
    (start? end? : Option ℤ) (metrics? : Option (List String)) :
    MetricsResponse :=
  { step := resolution
    points := (List.range (genPointCount now resolution start? end?).toNat).map
      (genPoint now rng resolution start? end? metrics?) }

/-- `fetchMetrics` resolves to `generateDataByResolution` over the same
window and metric list (lines 100-104); the simulated latency is irrelevant to
the values. -/
def fetchMetrics (now : ℤ) (rng : Rng) (start e : ℤ) (metrics : List String)
    (resolution : Resolution) : MetricsResponse :=
  generateDataByResolution now rng resolution (some start) (some e) (some metrics)

/-- `⌈a / b⌉` over `ℚ` evaluated by exhibiting the integer quotient. -/
theorem intCeil_div_int (a b q : ℤ) (hb : 0 < b) (h1 : a ≤ b * q)
    (h2 : b * q < a + b) : ⌈((a : ℤ) : ℚ) / ((b : ℤ) : ℚ)⌉ = q := by
  have hbq : (0 : ℚ) < (b : ℚ) := by exact_mod_cast hb
  rw [Int.ceil_eq_iff]
  constructor
  · rw [lt_div_iff hbq]
    have : (q - 1) * b < a := by nlinarith [h2]
    calc ((q : ℚ) - 1) * (b : ℚ) = (((q - 1) * b : ℤ) : ℚ) := by push_cast; ring
    _ < (a : ℚ) := by exact_mod_cast this
  · rw [div_le_iff hbq]
    calc (a : ℚ) ≤ ((b * q : ℤ) : ℚ) := by exact_mod_cast h1
    _ = (q : ℚ) * (b : ℚ) := by push_cast; ring

/-- `round q` evaluated by sandwiching `q + 1/2` between `z` and `z + 1`. -/
theorem ratRound_eq (q : ℚ) (z : ℤ) (h1 : (z : ℚ) ≤ q + 1/2)
    (h2 : q + 1/2 < z + 1) : round q = z := by
  rw [round_eq]
  exact Int.floor_eq_iff.mpr ⟨h1, h2⟩

/-- Lexicographic order on character lists, the comparison underlying the
default JS `Array.sort()` of metric names (code-unit order; identical to
codepoint order on ASCII names). -/
def strLtList : List Char → List Char → Bool
  | [], [] => false
  | [], _ :: _ => true
  | _ :: _, [] => false
  | a :: as, b :: bs => if a < b then true else if b < a then false else strLtList as bs

/-- `a ≤ b` on strings via `strLtList`. -/
def strLe (a b : String) : Bool := !(strLtList b.data a.data)

/-- Insert a string into a sorted list (helper for the JS `Array.sort()` used
in cache-key derivation). -/
def insertSorted (s : String) : List String → List String
  | [] => [s]
  | t :: ts => if strLe s t then s :: t :: ts else t :: insertSorted s ts

/-- `metrics.sort()`: lexicographic string sort. -/
def sortStrings : List String → List String
  | [] => []
  | s :: ss => insertSorted s (sortStrings ss)

/-- `Array.join(',')`. -/
def joinComma : List String → String
  | [] => ""
  | [s] => s
  | s :: ss => s ++ "," ++ joinComma ss

/-- `generateCacheKey` (monitorService.ts lines 14-16):
the template string `start-end-resolution-sortedMetrics`. -/
def generateCacheKey (start e : ℤ) (resolution : Resolution)
    (metrics : List String) : String :=
  toString start ++ "-" ++ toString e ++ "-" ++ resolutionLabel resolution
    ++ "-" ++ joinComma (sortStrings metrics)

/-- The two private records of `MonitorService`: `cache` and `cacheExpiry`,
modelled as partial maps from cache keys. -/
structure ServiceState where
  cache : String → Option MetricsResponse
  cacheExpiry : String → Option ℤ

/-- `CACHE_DURATION = 5 * 60 * 1000`. -/
def CACHE_DURATION : ℤ := 5 * 60 * 1000

/-- The guard `this.cache[cacheKey] && now - this.cacheExpiry[cacheKey] <
this.CACHE_DURATION` (line 25): a valid hit needs both records populated and a
fresh timestamp (a missing expiry yields `NaN < d`, which is false). -/
def cacheLookup (st : ServiceState) (key : String) (now : ℤ) :
    Option MetricsResponse :=
  match st.cache key, st.cacheExpiry key with
  | some data, some fetchedAt =>
      if now - fetchedAt < CACHE_DURATION then some data else none
  | some _, none => none
  | none, _ => none

/-- `MonitorService.getData` (lines 19-43) as a state transformer.
`fetchResult` is the outcome of the awaited `fetchMetrics` call: `some d` when
it resolves with `d`, `none` when it raises.  The returned `Bool` records
whether the remote-fetch path was invoked.  On fetch failure the caught error
is not re-thrown: the result is synthesized by `generateDataByResolution` for
the same `(resolution, start, end, metrics)` and the cache is left alone. -/
def getData (st : ServiceState) (now start e : ℤ) (metrics : List String)
    (fetchResult : Option MetricsResponse) (rng : Rng) :
    MetricsResponse × ServiceState × Bool :=
  let resolution := getResolutionForRange start e
  let key := generateCacheKey start e resolution metrics
  match cacheLookup st key now with
  | some data => (data, st, false)
  | none =>
    match fetchResult with
    | some data =>
        (data,
         ⟨fun k => if k = key then some data else st.cache k,
          fun k => if k = key then some now else st.cacheExpiry k⟩,
         true)
    | none =>
        (generateDataByResolution now rng resolution (some start) (some e)
          (some metrics), st, true)

/-- `MonitorService.clearCache` (lines 51-61) called with all four arguments.
JavaScript evaluates `if (start && end && resolution && metrics)`: the supplied
`resolution` (a non-empty string) and `metrics` (an array) are always truthy,
but a `0` bound is falsy and sends the call into the clear-everything
branch. -/
def clearCacheFull (st : ServiceState) (start e : ℤ) (resolution : Resolution)
    (metrics : List String) : ServiceState :=
  if start ≠ 0 ∧ e ≠ 0 then
    let key := generateCacheKey start e resolution metrics
    ⟨fun k => if k = key then none else st.cache k,
     fun k => if k = key then none else st.cacheExpiry k⟩
  else
    ⟨fun _ => none, fun _ => none⟩

/-- `sampleData` from `MonitorChart.tsx` (lines 164-182): keep every
`step`-th point where `step = Math.ceil(data.length / maxPoints)`, then append
the original last point when the retained tail differs in its `[0]` component
(the timestamp). -/
def sampleData (data : List (List ℚ)) (maxPoints : ℕ) : List (List ℚ) :=
  if data.length ≤ maxPoints then data
  else
    let step := (⌈(data.length : ℚ) / (maxPoints : ℚ)⌉).toNat
    let sampled := ((List.range data.length).filter fun i => i % step == 0).map
      fun i => data.getD i []
    if (sampled.getLastD []).headI ≠ (data.getLastD []).headI then
      sampled ++ [data.getLastD []]
    else sampled

/-- A raw zoom event: its arrival time and the window it resolves to. -/
structure ZoomEvent where
  time : ℕ
  startValue : ℤ
  endValue : ℤ
deriving DecidableEq

/-- The debounced callback body (lines 143-147): `loadData` fires only when
`startValue && endValue` are truthy, i.e. both non-zero. -/
def fireGuard (s e : ℤ) : List (ℤ × ℤ) :=
  if s ≠ 0 ∧ e ≠ 0 then [(s, e)] else []

/-- The `debounce` discipline (lines 42-47) run over a time-sorted event
list.  The state is the pending timer: `some (deadline, window)` after
`setTimeout(f, 200)`.  A new event clears a pending timer that has not fired
yet (`deadline > time`) and re-arms a fresh 200 ms timer for its own window; a
timer whose deadline has passed has already fired its load.  After the last
event, silence lets the pending timer fire.  The result is the list of
`loadData` windows, in firing order. -/
def debounceRun : Option (ℕ × ℤ × ℤ) → List ZoomEvent → List (ℤ × ℤ)
  | some (_, s, e), [] => fireGuard s e
  | none, [] => []
  | pending, ev :: rest =>
      (match pending with
       | some (d, s, e) => if d ≤ ev.time then fireGuard s e else []
       | none => []) ++
      debounceRun (some (ev.time + 200, ev.startValue, ev.endValue)) rest

/-- A fixed all-zero random stream, used to instantiate witnesses. -/
def rng0 : Rng := ⟨fun _ => 0, fun _ _ => 0, fun _ _ => 0⟩

/-- The generated series depends on `start?` only through `resolveStart`. -/
theorem genData_congr_start (now : ℤ) (rng : Rng) (resolution : Resolution)
    (e? : Option ℤ) (ms : Option (List String)) (s1 s2 : Option ℤ)
    (h : resolveStart now s1 = resolveStart now s2) :
    generateDataByResolution now rng resolution s1 e? ms
      = generateDataByResolution now rng resolution s2 e? ms := by
  have hpc : genPointCount now resolution s1 e? = genPointCount now resolution s2 e? := by
    simp only [genPointCount, h]
  have hint : genInterval now resolution s1 e? = genInterval now resolution s2 e? := by
    simp only [genInterval, h, hpc]
  have hpt : genPoint now rng resolution s1 e? ms = genPoint now rng resolution s2 e? ms := by
    funext i
    simp only [genPoint, h, hint]
  simp only [generateDataByResolution, hpc, hpt]

/-- The generated series depends on `end?` only through `resolveEnd`. -/
theorem genData_congr_end (now : ℤ) (rng : Rng) (resolution : Resolution)
    (s? : Option ℤ) (ms : Option (List String)) (e1 e2 : Option ℤ)
    (h : resolveEnd now e1 = resolveEnd now e2) :
    generateDataByResolution now rng resolution s? e1 ms
      = generateDataByResolution now rng resolution s? e2 ms := by
  have hpc : genPointCount now resolution s? e1 = genPointCount now resolution s? e2 := by
    simp only [genPointCount, h]
  have hint : genInterval now resolution s? e1 = genInterval now resolution s? e2 := by
    simp only [genInterval, h, hpc]
  have hpt : genPoint now rng resolution s? e1 ms = genPoint now rng resolution s? e2 ms := by
    funext i
    simp only [genPoint, hint]
  simp only [generateDataByResolution, hpc, hpt]

/-- C10 (implicit): a zero `start` or `end` bound handed to
`generateDataByResolution` is silently replaced by the default trailing-year
bound (`now - 365d`, resp. `now`), so the fallback series for a window
beginning at epoch `0` starts at `now - 365d`, not at the requested `0`. -/
theorem c10_zero_window_bound_defaulted (now : ℤ) (rng : Rng)
    (resolution : Resolution) (e? s? : Option ℤ) (ms : Option (List String))
    (p : MetricPoint)
    (hp : (generateDataByResolution now rng resolution (some 0) e? ms).points.head?
      = some p) :
    generateDataByResolution now rng resolution (some 0) e? ms
      = generateDataByResolution now rng resolution
          (some (now - 365 * 24 * 60 * 60 * 1000)) e? ms
    ∧ generateDataByResolution now rng resolution s? (some 0) ms
      = generateDataByResolution now rng resolution s? (some now) ms
    ∧ p.t = now - 365 * 24 * 60 * 60 * 1000 := by
  have hrs : resolveStart now (some 0)
      = resolveStart now (some (now - 365 * 24 * 60 * 60 * 1000)) := by
    simp [resolveStart]
  have hre : resolveEnd now (some 0) = resolveEnd now (some now) := by
    simp [resolveEnd]
  have hrs0 : resolveStart now (some 0) = now - 365 * 24 * 60 * 60 * 1000 := by
    simp [resolveStart]
  refine ⟨genData_congr_start now rng resolution e? ms _ _ hrs,
    genData_congr_end now rng resolution s? ms _ _ hre, ?_⟩
  simp only [generateDataByResolution] at hp
  rw [List.head?_map] at hp
  rcases hn : (genPointCount now resolution (some 0) e?).toNat with _ | m
  · rw [hn] at hp
    simp at hp
  · rw [hn, List.range_succ_eq_map] at hp
    simp only [List.head?_cons, Option.map_some'] at hp
    have hp' : p = genPoint now rng resolution (some 0) e? ms 0 := by
      exact (Option.some_injective _ hp).symm
    rw [hp']
    simp [genPoint, hrs0]

/-- Evaluate `getPointCount` by exhibiting the integer ceiling. -/
theorem getPointCount_eval (s e b q : ℤ) (resolution : Resolution)
    (hb : RESOLUTION_INTERVALS resolution = b) (hbpos : 0 < b)
    (h1 : e - s ≤ b * q) (h2 : b * q < (e - s) + b) :
    getPointCount s e resolution = q := by
  cases resolution <;>
  · simp only [getPointCount]
    rw [hb]
    exact intCeil_div_int (e - s) b q hbpos h1 h2

/-- Witness for C10 at `now = 31536000001`, window start `0`, end `2`. -/
theorem c10_zero_window_bound_defaulted_witness :
    generateDataByResolution 31536000001 rng0 .s30 (some 0) (some 2) (some [])
      = generateDataByResolution 31536000001 rng0 .s30
          (some (31536000001 - 365 * 24 * 60 * 60 * 1000)) (some 2) (some [])
    ∧ generateDataByResolution 31536000001 rng0 .s30 (some 5) (some 0) (some [])
      = generateDataByResolution 31536000001 rng0 .s30 (some 5)
          (some 31536000001) (some [])
    ∧ (⟨1, []⟩ : MetricPoint).t = 31536000001 - 365 * 24 * 60 * 60 * 1000 := by
  have hc : getPointCount 1 2 .s30 = 1 :=
    getPointCount_eval 1 2 30000 1 .s30 (by norm_num [RESOLUTION_INTERVALS])
      (by norm_num) (by norm_num) (by norm_num)
  have hrs0 : resolveStart 31536000001 (some 0) = 1 := by
    norm_num [resolveStart]
  have hre0 : resolveEnd 31536000001 (some 2) = 2 := by
    norm_num [resolveEnd]
  have hpc : genPointCount 31536000001 .s30 (some 0) (some 2) = 1 := by
    simp only [genPointCount, hrs0, hre0, hc]
    norm_num
  refine c10_zero_window_bound_defaulted 31536000001 rng0 .s30 (some 2) (some 5)
    (some []) ⟨1, []⟩ ?_
  simp only [generateDataByResolution, hpc]
  norm_num [genPoint, genMetrics, hrs0]
  exact ⟨0, by decide, by norm_num [round_one]⟩

/-- The clamp in `generateRandomValue` guarantees a lower bound of `0`. -/
theorem generateRandomValue_nonneg (base range volatility r1 r2 : ℚ) :
    0 ≤ generateRandomValue base range volatility r1 r2 :=
  le_max_left 0 _

/-- The clamp in `generateRandomValue` guarantees an upper bound of `100`. -/
theorem generateRandomValue_le_hundred (base range volatility r1 r2 : ℚ) :
    generateRandomValue base range volatility r1 r2 ≤ 100 :=
  max_le (by norm_num) (min_le_left 100 _)

/-- Rounding to one decimal keeps a value inside `[0, 100]`. -/
theorem toFixed1_bounds (q : ℚ) (h0 : 0 ≤ q) (h1 : q ≤ 100) :
    0 ≤ toFixed1 q ∧ toFixed1 q ≤ 100 := by
  have hlo : (0 : ℤ) ≤ round (10 * q) := by
    rw [round_eq]
    exact Int.floor_nonneg.mpr (by linarith)
  have hfl : (⌊(1000 + 1/2 : ℚ)⌋ : ℤ) = 1000 := by
    rw [Int.floor_eq_iff] <;> norm_num
  have hhi : round (10 * q) ≤ 1000 := by
    rw [round_eq]
    calc ⌊10 * q + 1/2⌋ ≤ ⌊(1000 + 1/2 : ℚ)⌋ := Int.floor_le_floor (by linarith)
    _ = 1000 := hfl
  constructor
  · exact div_nonneg (by exact_mod_cast hlo) (by norm_num)
  · rw [toFixed1, div_le_iff (by norm_num : (0:ℚ) < 10)]
    calc ((round (10 * q) : ℤ) : ℚ) ≤ ((1000 : ℤ) : ℚ) := by exact_mod_cast hhi
    _ = 100 * 10 := by norm_num

/-- Every synthesized value is a clamped-and-rounded quantity in
`[0, 100]`. -/
theorem genValue_bounds (rng : Rng) (i j : ℕ) (m : String) :
    0 ≤ genValue rng i j m ∧ genValue rng i j m ≤ 100 :=
  toFixed1_bounds _ (generateRandomValue_nonneg _ _ _ _ _)
    (generateRandomValue_le_hundred _ _ _ _ _)

/-- C8: every metric value in every point of a generated series lies in
`[0, 100]`, for every window, resolution, metric list (the requested list is
reproduced exactly as the keys of each point's value map, so an empty metric
list yields points carrying only their timestamp), and every outcome of the
random source; single-point windows are the `pointCount = 1` instances. -/
theorem c8_synthesized_values_in_range (now : ℤ) (rng : Rng)
    (resolution : Resolution) (start? end? : Option ℤ)
    (metrics? : Option (List String)) (p : MetricPoint)
    (hp : p ∈ (generateDataByResolution now rng resolution start? end? metrics?).points) :
    (p.values.all fun mv => decide (0 ≤ mv.2) && decide (mv.2 ≤ 100)) = true
    ∧ p.values.map Prod.fst = genMetrics metrics? := by
  simp only [generateDataByResolution, List.mem_map] at hp
  obtain ⟨i, hi, rfl⟩ := hp
  constructor
  · rw [List.all_eq_true]
    intro mv hmv
    simp only [genPoint, List.mem_map] at hmv
    obtain ⟨jm, hjm, rfl⟩ := hmv
    have hb := genValue_bounds rng i jm.1 jm.2
    simp [hb.1, hb.2]
  · simp only [genPoint]
    rw [List.map_map]
    rw [show (Prod.fst ∘ fun jm : ℕ × String => (jm.2, genValue rng i jm.1 jm.2))
      = Prod.snd from rfl]
    exact List.enum_map_snd _

/-- Witness for C8: the single-point window `[1, 2]` at resolution `30s` with
metric list `["cpu_1"]` and the all-zero random stream, whose one point is
`(t = 1, cpu_1 = 24.5)`. -/
theorem c8_synthesized_values_in_range_witness :
    ((⟨1, [("cpu_1", 49/2)]⟩ : MetricPoint).values.all
      fun mv => decide (0 ≤ mv.2) && decide (mv.2 ≤ 100)) = true
    ∧ (⟨1, [("cpu_1", 49/2)]⟩ : MetricPoint).values.map Prod.fst
      = genMetrics (some ["cpu_1"]) := by
  have hc : getPointCount 1 2 .s30 = 1 :=
    getPointCount_eval 1 2 30000 1 .s30 (by norm_num [RESOLUTION_INTERVALS])
      (by norm_num) (by norm_num) (by norm_num)
  have hsw : strStartsWith "cpu_1" "cpu" = true := by decide
  have hgr : generateRandomValue 30 10 (1/10) 0 0 = 49/2 := by
    unfold generateRandomValue
    rw [show ((30:ℚ) + ((0:ℚ) - 1/2) * 10 + ((0:ℚ) - 1/2) * (1/10) * 10) = 49/2
      by norm_num]
    rw [min_eq_right (by norm_num : (49/2:ℚ) ≤ 100),
      max_eq_right (by norm_num : (0:ℚ) ≤ 49/2)]
  have hr : round ((245:ℚ)) = 245 := ratRound_eq 245 245 (by norm_num) (by norm_num)
  have hv : genValue rng0 0 0 "cpu_1" = 49/2 := by
    unfold genValue
    rw [show baseValue rng0 0 "cpu_1" = 30 by norm_num [baseValue, hsw, rng0],
      show metricRange "cpu_1" = 10 by norm_num [metricRange, hsw],
      show rng0.noise1 0 0 = 0 from rfl, show rng0.noise2 0 0 = 0 from rfl, hgr]
    unfold toFixed1
    rw [show (10 * (49/2:ℚ)) = 245 by norm_num, hr]
    norm_num
  have hrs : resolveStart 0 (some 1) = 1 := by norm_num [resolveStart]
  have hre : resolveEnd 0 (some 2) = 2 := by norm_num [resolveEnd]
  have hpc : genPointCount 0 .s30 (some 1) (some 2) = 1 := by
    simp only [genPointCount, hrs, hre, hc]
    norm_num
  refine c8_synthesized_values_in_range 0 rng0 .s30 (some 1) (some 2)
    (some ["cpu_1"]) ⟨1, [("cpu_1", 49/2)]⟩ ?_
  simp only [generateDataByResolution, hpc]
  rw [List.mem_map]
  refine ⟨0, by decide, ?_⟩
  simp only [genPoint, genMetrics, MetricPoint.mk.injEq]
  constructor
  · norm_num [hrs, round_one]
  · simp [hv]

/-- The empty service state: both records start empty. -/
def emptyState : ServiceState := ⟨fun _ => none, fun _ => none⟩

/-- A minimal concrete response, used in witnesses. -/
def resp0 : MetricsResponse := ⟨.s30, []⟩

/-- A lapsed cache entry can never become valid again later. -/
theorem cacheLookup_none_mono (st : ServiceState) (key : String) (t1 t2 : ℤ)
    (h : cacheLookup st key t1 = none) (hle : t1 ≤ t2) :
    cacheLookup st key t2 = none := by
  rcases hc : st.cache key with _ | d
  · unfold cacheLookup
    rw [hc]
  · rcases he : st.cacheExpiry key with _ | ts
    · unfold cacheLookup
      rw [hc, he]
    · unfold cacheLookup at h ⊢
      simp only [hc, he] at h ⊢
      rcases lt_or_ge (t1 - ts) CACHE_DURATION with h1 | h1
      · rw [if_pos h1] at h
        exact absurd h (by simp)
      · rw [if_neg (by omega)]

/-- On a cache miss with a succeeding fetch, `getData` returns the fetched
series, writes both records under the derived key, and reports one fetch. -/
theorem getData_miss_fetch_ok (st : ServiceState) (now start e : ℤ)
    (metrics : List String) (d : MetricsResponse) (rng : Rng)
    (h : cacheLookup st
      (generateCacheKey start e (getResolutionForRange start e) metrics) now = none) :
    getData st now start e metrics (some d) rng
      = (d,
         ⟨fun k => if k = generateCacheKey start e (getResolutionForRange start e) metrics
            then some d else st.cache k,
          fun k => if k = generateCacheKey start e (getResolutionForRange start e) metrics
            then some now else st.cacheExpiry k⟩,
         true) := by
  simp only [getData]
  rw [h]

/-- On a valid cache hit, `getData` returns the cached series, leaves the
state alone and performs no fetch. -/
theorem getData_hit (st : ServiceState) (now start e : ℤ)
    (metrics : List String) (f : Option MetricsResponse) (rng : Rng)
    (d : MetricsResponse)
    (h : cacheLookup st
      (generateCacheKey start e (getResolutionForRange start e) metrics) now = some d) :
    getData st now start e metrics f rng = (d, st, false) := by
  simp only [getData]
  rw [h]

/-- C2: when the remote fetch fails on a cache miss, `getData` swallows the
error and returns a series synthesized by `generateDataByResolution` for the
same `(resolution, start, end, metrics)`, the cache is left exactly as it was
(the key stays unretrievable at any later instant), and a subsequent identical
request invokes the fetch path again. -/
theorem c2_fetch_failure_fallback (st : ServiceState) (now now2 start e : ℤ)
    (metrics : List String) (rng rng2 : Rng) (f2 : Option MetricsResponse)
    (hmiss : cacheLookup st
      (generateCacheKey start e (getResolutionForRange start e) metrics) now = none)
    (hle : now ≤ now2) :
    getData st now start e metrics none rng
      = (generateDataByResolution now rng (getResolutionForRange start e)
          (some start) (some e) (some metrics), st, true)
    ∧ cacheLookup st
        (generateCacheKey start e (getResolutionForRange start e) metrics) now2 = none
    ∧ (getData st now2 start e metrics f2 rng2).2.2 = true := by
  have h2 := cacheLookup_none_mono st _ now now2 hmiss hle
  refine ⟨?_, h2, ?_⟩
  · simp only [getData]
    rw [hmiss]
  · simp only [getData]
    rw [h2]
    rcases f2 with _ | d
    · rfl
    · rfl

/-- Witness for C2: empty cache, window `[1, 2]`, failed fetch at `t = 0`. -/
theorem c2_fetch_failure_fallback_witness :
    getData emptyState 0 1 2 [] none rng0
      = (generateDataByResolution 0 rng0 (getResolutionForRange 1 2)
          (some 1) (some 2) (some []), emptyState, true)
    ∧ cacheLookup emptyState
        (generateCacheKey 1 2 (getResolutionForRange 1 2) []) 0 = none
    ∧ (getData emptyState 0 1 2 [] none rng0).2.2 = true :=
  c2_fetch_failure_fallback emptyState 0 0 1 2 [] rng0 rng0 none rfl (le_refl 0)

/-- C3 fails as stated: with an empty cache and a twice-failing fetch, two
identical `getData` calls 1 second apart each invoke the remote-fetch path
(the fallback is deliberately not cached), for two fetches in total. -/
theorem c3_counterexample_two_fetches :
    ¬ (cond (getData emptyState 0 1 2 [] none rng0).2.2 1 0
        + cond (getData (getData emptyState 0 1 2 [] none rng0).2.1 1000 1 2 []
            none rng0).2.2 1 0 ≤ 1) := by
  have hst : (getData emptyState 0 1 2 [] none rng0).2.1 = emptyState := rfl
  have h1 : (getData emptyState 0 1 2 [] none rng0).2.2 = true := rfl
  have h2 : (getData emptyState 1000 1 2 [] none rng0).2.2 = true := rfl
  rw [hst, h1, h2]
  norm_num

/-- C3 amended: two identical `getData` calls less than 5 minutes apart invoke
the remote-fetch path at most once in total, provided the first call's fetch
(if it happens) succeeds; a failed first fetch is not cached and the second
call retries. -/
theorem c3_amended_at_most_one_fetch (st : ServiceState) (now1 now2 start e : ℤ)
    (metrics : List String) (rng1 rng2 : Rng) (d : MetricsResponse)
    (f2 : Option MetricsResponse)
    (h0 : 0 ≤ now2 - now1) (h5 : now2 - now1 < 300000) :
    cond (getData st now1 start e metrics (some d) rng1).2.2 1 0
      + cond (getData (getData st now1 start e metrics (some d) rng1).2.1 now2
          start e metrics f2 rng2).2.2 1 0 ≤ 1 := by
  rcases hl : cacheLookup st
      (generateCacheKey start e (getResolutionForRange start e) metrics) now1
    with _ | data
  · rw [getData_miss_fetch_ok st now1 start e metrics d rng1 hl]
    have hfresh : now2 - now1 < CACHE_DURATION := by
      simp only [CACHE_DURATION]
      omega
    have hl2 : cacheLookup
        ⟨fun k => if k = generateCacheKey start e (getResolutionForRange start e) metrics
           then some d else st.cache k,
         fun k => if k = generateCacheKey start e (getResolutionForRange start e) metrics
           then some now1 else st.cacheExpiry k⟩
        (generateCacheKey start e (getResolutionForRange start e) metrics) now2
        = some d := by
      simp [cacheLookup, hfresh]
    rw [getData_hit _ now2 start e metrics f2 rng2 d hl2]
    norm_num
  · rw [getData_hit st now1 start e metrics (some d) rng1 data hl]
    rcases hb : (getData st now2 start e metrics f2 rng2).2.2 <;> norm_num

/-- A service state holding one entry under the literal key `"k"`. -/
def stOne : ServiceState :=
  ⟨fun k => if k = "k" then some resp0 else none,
   fun k => if k = "k" then some 0 else none⟩

/-- C7 amended: with all four arguments supplied and both bounds non-zero
(truthy), `clearCache` removes exactly the entry under the derived key and
leaves every other key untouched in both records; a zero bound instead falls
into the clear-all branch. -/
theorem c7_amended_clear_evicts_single_key (st : ServiceState) (start e : ℤ)
    (resolution : Resolution) (metrics : List String) (k : String)
    (hs : start ≠ 0) (he : e ≠ 0)
    (hk : k ≠ generateCacheKey start e resolution metrics) :
    (clearCacheFull st start e resolution metrics).cache
        (generateCacheKey start e resolution metrics) = none
    ∧ (clearCacheFull st start e resolution metrics).cacheExpiry
        (generateCacheKey start e resolution metrics) = none
    ∧ (clearCacheFull st start e resolution metrics).cache k = st.cache k
    ∧ (clearCacheFull st start e resolution metrics).cacheExpiry k
        = st.cacheExpiry k := by
  simp only [clearCacheFull, if_pos (And.intro hs he)]
  refine ⟨by simp, by simp, by simp [hk], by simp [hk]⟩

/-- Witness for C7 at the window `[1, 2]` with an unrelated entry `"k"`. -/
theorem c7_amended_clear_evicts_single_key_witness :
    (clearCacheFull stOne 1 2 .s30 []).cache (generateCacheKey 1 2 .s30 []) = none
    ∧ (clearCacheFull stOne 1 2 .s30 []).cacheExpiry
        (generateCacheKey 1 2 .s30 []) = none
    ∧ (clearCacheFull stOne 1 2 .s30 []).cache "k" = stOne.cache "k"
    ∧ (clearCacheFull stOne 1 2 .s30 []).cacheExpiry "k" = stOne.cacheExpiry "k" :=
  c7_amended_clear_evicts_single_key stOne 1 2 .s30 [] "k" (by norm_num)
    (by norm_num) (by decide)

/-- C7 fails as stated: `clearCache(0, 1, '30s', [])` is fully specified with
`start < end`, yet JavaScript truthiness routes it to the clear-all branch and
the unrelated entry `"k"` is wiped. -/
theorem c7_counterexample_zero_start_clears_all :
    stOne.cache "k" = some resp0
    ∧ "k" ≠ generateCacheKey 0 1 .s30 []
    ∧ (clearCacheFull stOne 0 1 .s30 []).cache "k" = none := by
  refine ⟨rfl, by decide, ?_⟩
  norm_num [clearCacheFull]

/-- C6 amended: for a window of duration exactly `2 × 365` days ending after
1972 (`now > 2y`), the resolution is `1d`, the uncapped point count is `730`
(not `365`), `730` is under the `10000` cap, and the generated series has
exactly `730` points. -/
theorem c6_amended_two_year_window_730_points (now : ℤ) (rng : Rng)
    (ms : List String) (hnow : 63072000000 < now) :
    getResolutionForRange (now - 63072000000) now = .d1
    ∧ getPointCount (now - 63072000000) now .d1 = 730
    ∧ (730 : ℤ) < 10000
    ∧ (generateDataByResolution now rng .d1 (some (now - 63072000000)) (some now)
        (some ms)).points.length = 730 := by
  have hres : getResolutionForRange (now - 63072000000) now = .d1 := by
    rw [getResolutionForRange_eq,
      if_pos (by omega : (31536000000 : ℤ) ≤ now - (now - 63072000000))]
  have hpc : getPointCount (now - 63072000000) now .d1 = 730 :=
    getPointCount_eval (now - 63072000000) now 86400000 730 .d1
      (by norm_num [RESOLUTION_INTERVALS]) (by norm_num) (by omega) (by omega)
  have hrs : resolveStart now (some (now - 63072000000)) = now - 63072000000 := by
    simp only [resolveStart]
    rw [if_neg (by omega)]
  have hre : resolveEnd now (some now) = now := by
    simp only [resolveEnd]
    rw [if_neg (by omega)]
  refine ⟨hres, hpc, by norm_num, ?_⟩
  simp only [generateDataByResolution, List.length_map, List.length_range,
    genPointCount, hrs, hre, hpc]
  norm_num
  rfl

/-- Witness for C6 at `now = 63072000001` (window start `1`). -/
theorem c6_amended_two_year_window_730_points_witness :
    getResolutionForRange (63072000001 - 63072000000) 63072000001 = .d1
    ∧ getPointCount (63072000001 - 63072000000) 63072000001 .d1 = 730
    ∧ (730 : ℤ) < 10000
    ∧ (generateDataByResolution 63072000001 rng0 .d1
        (some (63072000001 - 63072000000)) (some 63072000001)
        (some [])).points.length = 730 :=
  c6_amended_two_year_window_730_points 63072000001 rng0 [] (by norm_num)

/-- C6 fails as stated: the 2-year window `[1, 63072000001]` yields 730
points, not 365. -/
theorem c6_counterexample_not_365_points :
    (generateDataByResolution 63072000001 rng0 .d1 (some 1) (some 63072000001)
      (some [])).points.length ≠ 365 := by
  have hpc : getPointCount 1 63072000001 .d1 = 730 :=
    getPointCount_eval 1 63072000001 86400000 730 .d1
      (by norm_num [RESOLUTION_INTERVALS]) (by norm_num) (by norm_num)
      (by norm_num)
  have hrs : resolveStart 63072000001 (some 1) = 1 := by
    norm_num [resolveStart]
  have hre : resolveEnd 63072000001 (some 63072000001) = 63072000001 := by
    norm_num [resolveEnd]
  simp only [generateDataByResolution, List.length_map, List.length_range,
    genPointCount, hrs, hre, hpc]
  norm_num
  decide

/-- Witness for the amended C3: empty cache, two calls 1 second apart, first
fetch succeeding. -/
theorem c3_amended_at_most_one_fetch_witness :
    cond (getData emptyState 0 1 2 [] (some resp0) rng0).2.2 1 0
      + cond (getData (getData emptyState 0 1 2 [] (some resp0) rng0).2.1 1000
          1 2 [] none rng0).2.2 1 0 ≤ 1 :=
  c3_amended_at_most_one_fetch emptyState 0 1000 1 2 [] rng0 rng0 resp0 none
    (by norm_num) (by norm_num)

/-- Unfolding equation: an armed timer and a next event. -/
theorem debounceRun_pending_cons (d : ℕ) (s v : ℤ) (ev : ZoomEvent)
    (rest : List ZoomEvent) :
    debounceRun (some (d, s, v)) (ev :: rest)
      = (if d ≤ ev.time then fireGuard s v else [])
        ++ debounceRun (some (ev.time + 200, ev.startValue, ev.endValue)) rest :=
  rfl

/-- Unfolding equation: no pending timer and a next event. -/
theorem debounceRun_none_cons (ev : ZoomEvent) (rest : List ZoomEvent) :
    debounceRun none (ev :: rest)
      = debounceRun (some (ev.time + 200, ev.startValue, ev.endValue)) rest :=
  rfl

/-- Unfolding equation: a pending timer fires after final silence. -/
theorem debounceRun_pending_nil (d : ℕ) (s v : ℤ) :
    debounceRun (some (d, s, v)) [] = fireGuard s v :=
  rfl

/-- An armed timer is cancelled (without firing) by an event that arrives
before its deadline. -/
theorem debounce_absorb (d : ℕ) (s v : ℤ) (ev : ZoomEvent)
    (rest : List ZoomEvent) (h : ev.time < d) :
    debounceRun (some (d, s, v)) (ev :: rest) = debounceRun none (ev :: rest) := by
  rw [debounceRun_pending_cons, if_neg (not_le.mpr h), List.nil_append,
    debounceRun_none_cons]

/-- A burst (every gap under 200 ms) ends in a single timer expiry for the
last event's window. -/
theorem debounce_burst_aux : ∀ (evs : List ZoomEvent) (hne : evs ≠ []),
    List.Chain' (fun a b => b.time < a.time + 200) evs →
    debounceRun none evs
      = fireGuard (evs.getLast hne).startValue (evs.getLast hne).endValue := by
  intro evs
  induction evs with
  | nil => intro hne; exact absurd rfl hne
  | cons ev tail IH =>
    intro hne hchain
    rcases tail with _ | ⟨ev2, rest⟩
    · rw [debounceRun_none_cons, debounceRun_pending_nil]
      simp
    · have hrel : ev2.time < ev.time + 200 := (List.chain'_cons.mp hchain).1
      have hch2 := (List.chain'_cons.mp hchain).2
      have hlast : (ev :: ev2 :: rest).getLast hne
          = (ev2 :: rest).getLast (by simp) := List.getLast_cons (by simp)
      rw [debounceRun_none_cons, debounce_absorb _ _ _ _ _ hrel,
        IH (by simp) hch2, hlast]

/-- C9 amended: every event re-arms a fresh 200 ms timer for its own window
and a load fires only after 200 ms of silence, so a burst with all gaps under
200 ms produces exactly one `getData` call, for the last event's window —
provided that window's bounds are non-zero (the handler's
`if (startValue && endValue)` guard drops zero bounds). -/
theorem c9_amended_debounce_burst_single_load (evs : List ZoomEvent)
    (hne : evs ≠ [])
    (hchain : List.Chain' (fun a b => b.time < a.time + 200) evs)
    (hs : (evs.getLast hne).startValue ≠ 0)
    (he : (evs.getLast hne).endValue ≠ 0) :
    debounceRun none evs
      = [((evs.getLast hne).startValue, (evs.getLast hne).endValue)] := by
  rw [debounce_burst_aux evs hne hchain]
  unfold fireGuard
  rw [if_pos (And.intro hs he)]

/-- Witness for C9: three events 50 ms apart; one load fires, for the last
window `(3, 100)`. -/
theorem c9_amended_debounce_burst_single_load_witness :
    debounceRun none [⟨0, 1, 100⟩, ⟨50, 2, 100⟩, ⟨100, 3, 100⟩] = [(3, 100)] := by
  rw [c9_amended_debounce_burst_single_load
    [⟨0, 1, 100⟩, ⟨50, 2, 100⟩, ⟨100, 3, 100⟩] (by decide)
    (by norm_num [List.chain'_cons, List.chain'_singleton]) (by decide)
    (by decide)]
  decide

/-- C9 fails as stated: a burst of three events 50 ms apart whose last window
starts at timestamp `0` produces no `getData` call at all (the zero bound is
falsy), not exactly one. -/
theorem c9_counterexample_zero_bound_drops_load :
    debounceRun none [⟨0, 1, 100⟩, ⟨50, 1, 100⟩, ⟨100, 0, 100⟩] = []
    ∧ debounceRun none [⟨0, 1, 100⟩, ⟨50, 1, 100⟩, ⟨100, 0, 100⟩]
        ≠ [((0 : ℤ), (100 : ℤ))] := by
  constructor
  · decide
  · decide

/-- Evaluate the sampler's ceiling stride on integers. -/
theorem natCeilDiv_eval (n m q : ℕ) (hm : 0 < m) (h1 : n ≤ m * q)
    (h2 : m * q < n + m) : (⌈(n : ℚ) / (m : ℚ)⌉).toNat = q := by
  have hmq : (0:ℚ) < (m:ℚ) := by exact_mod_cast hm
  have hceil : ⌈(n : ℚ) / (m : ℚ)⌉ = (q : ℤ) := by
    rw [Int.ceil_eq_iff]
    constructor
    · push_cast
      rw [lt_div_iff₀ hmq]
      have hlt : ((m * q : ℕ) : ℚ) < (n : ℚ) + (m : ℚ) := by
        exact_mod_cast h2
      have heq : ((q : ℚ) - 1) * (m : ℚ) = ((m * q : ℕ) : ℚ) - (m : ℚ) := by
        push_cast
        ring
      linarith
    · push_cast
      rw [div_le_iff₀ hmq]
      calc (n : ℚ) ≤ ((m * q : ℕ) : ℚ) := by exact_mod_cast h1
      _ = (q : ℚ) * (m : ℚ) := by push_cast; ring
  rw [hceil, Int.toNat_natCast]

/-- The number of multiples of `s` below `n` (the stride loop's iteration
count) is `(n + s - 1) / s`. -/
theorem length_filter_mod (s : ℕ) (hs : 0 < s) :
    ∀ n : ℕ, ((List.range n).filter fun i => i % s == 0).length
      = (n + s - 1) / s := by
  intro n
  induction n with
  | zero =>
    simp [Nat.div_eq_of_lt (by omega : s - 1 < s)]
  | succ n IH =>
    rw [List.range_succ, List.filter_append, List.length_append, IH]
    have h1 : n + 1 + s - 1 = n + s - 1 + 1 := by omega
    have h2 : n + s - 1 + 1 = n + s := by omega
    rw [h1, Nat.succ_div, h2]
    by_cases hd : s ∣ n
    · have hmod : n % s = 0 := Nat.mod_eq_zero_of_dvd hd
      rw [if_pos (Nat.dvd_add_self_right.mpr hd)]
      simp [hmod]
    · have hmod : ¬ (n % s = 0) := fun hc => hd (Nat.dvd_of_mod_eq_zero hc)
      rw [if_neg (fun hc => hd (Nat.dvd_add_self_right.mp hc))]
      simp [hmod]

/-- Mapping `i ↦ data[i]` over `range m` recovers the length-`m` front of
`data`. -/
theorem map_getD_range_take (data : List (List ℚ)) (m : ℕ)
    (hm : m ≤ data.length) :
    (List.range m).map (fun i => data.getD i []) = data.take m := by
  apply List.ext_getElem
  · simp [hm]
  · intro i h1 h2
    have hi : i < m := by simpa using h1
    have hj : i < data.length := lt_of_lt_of_le hi hm
    simp only [List.getElem_map, List.getElem_range, List.getElem_take]
    exact List.getD_eq_getElem data [] hj

/-- C4 amended: for `maxPoints ≥ 1`, `sampleData` returns the input unchanged
when it already fits, and otherwise returns at most `maxPoints + 1` points
(the re-appended final point can exceed the budget by one). -/
theorem c4_amended_sample_length_bound (data : List (List ℚ)) (mp : ℕ)
    (hmp : 1 ≤ mp) :
    (data.length ≤ mp ∧ sampleData data mp = data)
    ∨ (mp < data.length ∧ (sampleData data mp).length ≤ mp + 1) := by
  rcases le_or_lt data.length mp with h | h
  · left
    refine ⟨h, ?_⟩
    simp only [sampleData]
    rw [if_pos h]
  · right
    refine ⟨h, ?_⟩
    simp only [sampleData]
    rw [if_neg (not_le.mpr h)]
    set s := (⌈(data.length : ℚ) / (mp : ℚ)⌉).toNat with hsdef
    have hn1 : 1 ≤ data.length := by omega
    have hceil_pos : 0 < ⌈(data.length : ℚ) / (mp : ℚ)⌉ :=
      Int.ceil_pos.mpr (div_pos (by exact_mod_cast hn1) (by exact_mod_cast hmp))
    have hs1 : 0 < s := by
      rw [hsdef]
      exact Int.lt_toNat.mpr (by exact_mod_cast hceil_pos)
    have hcast : ((s : ℕ) : ℤ) = ⌈(data.length : ℚ) / (mp : ℚ)⌉ := by
      rw [hsdef]
      exact Int.toNat_of_nonneg (le_of_lt hceil_pos)
    have hnle : data.length ≤ s * mp := by
      have h1 : (data.length : ℚ) ≤ (⌈(data.length : ℚ) / (mp : ℚ)⌉ : ℚ) * (mp : ℚ) :=
        (div_le_iff₀ (by exact_mod_cast hmp : (0:ℚ) < (mp:ℚ))).mp (Int.le_ceil _)
      have h2 : (data.length : ℤ) ≤ ((s : ℕ) : ℤ) * (mp : ℤ) := by
        rw [hcast]
        exact_mod_cast h1
      exact_mod_cast h2
    have hkept : (((List.range data.length).filter fun i => i % s == 0).map
        fun i => data.getD i []).length ≤ mp := by
      rw [List.length_map, length_filter_mod s hs1 data.length]
      have hc : (mp + 1) * s = s * mp + s := by ring
      have hlt : data.length + s - 1 < (mp + 1) * s := by omega
      have := (Nat.div_lt_iff_lt_mul hs1).mpr hlt
      omega
    split_ifs with hcond
    · rw [List.length_append]
      simp only [List.length_cons, List.length_nil]
      omega
    · omega

/-- Witness for the amended C4: three points with budget 5 come back
unchanged. -/
theorem c4_amended_sample_length_bound_witness :
    (([[(0:ℚ)], [1], [2]] : List (List ℚ)).length ≤ 5
      ∧ sampleData [[(0:ℚ)], [1], [2]] 5 = [[(0:ℚ)], [1], [2]])
    ∨ (5 < ([[(0:ℚ)], [1], [2]] : List (List ℚ)).length
      ∧ (sampleData [[(0:ℚ)], [1], [2]] 5).length ≤ 5 + 1) :=
  c4_amended_sample_length_bound [[(0:ℚ)], [1], [2]] 5 (by norm_num)

/-- C4 fails as stated: five points with budget 2 sample to indices `{0, 3}`
and then re-append the final point, giving 3 > 2 points. -/
theorem c4_counterexample_exceeds_budget :
    ¬ ((sampleData [[(0:ℚ)], [1], [2], [3], [4]] 2).length ≤ 2) := by
  have hlen5 : ([[(0:ℚ)], [1], [2], [3], [4]] : List (List ℚ)).length = 5 := rfl
  have hstep : (⌈((5 : ℕ) : ℚ) / ((2 : ℕ) : ℚ)⌉).toNat = 3 :=
    natCeilDiv_eval 5 2 3 (by norm_num) (by norm_num) (by norm_num)
  simp only [sampleData]
  rw [if_neg (by decide), hlen5, hstep]
  decide

/-- Index `data.length - 1` retrieves the last point. -/
theorem getD_last_index (data : List (List ℚ)) (hne : data ≠ []) :
    data.getD (data.length - 1) [] = data.getLast hne := by
  have hl : 0 < data.length := List.length_pos_iff_ne_nil.mpr hne
  rw [List.getD_eq_getElem data [] (by omega)]
  exact (List.getLast_eq_getElem data hne).symm

/-- Distinct timestamps at distinct indices, phrased over `getD`. -/
theorem pairwise_headI_ne_getD (data : List (List ℚ))
    (hdist : data.Pairwise fun p q => p.headI ≠ q.headI)
    (i j : ℕ) (hi : i < data.length) (hj : j < data.length) (hij : i < j) :
    (data.getD i []).headI ≠ (data.getD j []).headI := by
  rw [List.getD_eq_getElem data [] hi, List.getD_eq_getElem data [] hj]
  exact List.pairwise_iff_getElem.mp hdist i j hi hj hij

/-- The kept-index list splits off its potential final index. -/
theorem sample_idx_split (s m : ℕ) :
    (List.range (m + 1)).filter (fun i => i % s == 0)
      = ((List.range m).filter fun i => i % s == 0)
        ++ (if (m % s == 0) = true then [m] else []) := by
  rw [List.range_succ, List.filter_append]
  congr 1
  rw [List.filter_singleton]
  rcases hms : (m % s == 0) with _ | _
  · simp [hms]
  · simp [hms]

/-- Index `0` is always kept, so the sampled head is the input head. -/
theorem sample_kept_head (data : List (List ℚ)) (s m : ℕ)
    (hm : data.length = m + 1) :
    (((List.range (m + 1)).filter fun i => i % s == 0).map
      fun i => data.getD i []).head? = data.head? := by
  rw [List.range_succ_eq_map, List.filter_cons, if_pos (by simp)]
  cases data with
  | nil => simp at hm
  | cons d0 ds => rfl

/-- C5 amended: for a non-empty input whose points have pairwise-distinct
timestamps (`[0]` components — the code identifies the final point by its
timestamp alone) and `maxPoints ≥ 1`, `sampleData` preserves relative order
(the output is a sublist of the input) and keeps the input's first and last
points as its endpoints. -/
theorem c5_amended_sample_order_and_endpoints (data : List (List ℚ)) (mp : ℕ)
    (hne : data ≠ []) (hmp : 1 ≤ mp)
    (hdist : data.Pairwise fun p q => p.headI ≠ q.headI) :
    (sampleData data mp).Sublist data
    ∧ (sampleData data mp).head? = data.head?
    ∧ (sampleData data mp).getLast? = data.getLast? := by
  rcases le_or_lt data.length mp with h | h
  · have heq : sampleData data mp = data := by
      simp only [sampleData]
      rw [if_pos h]
    rw [heq]
    exact ⟨List.Sublist.refl data, rfl, rfl⟩
  obtain ⟨m, hm⟩ : ∃ m, data.length = m + 1 := by
    cases data with
    | nil => exact absurd rfl hne
    | cons d0 ds => exact ⟨ds.length, rfl⟩
  simp only [sampleData]
  rw [if_neg (not_le.mpr h), hm]
  set s := (⌈((m + 1 : ℕ) : ℚ) / (mp : ℚ)⌉).toNat with hsdef
  set idx := (List.range (m + 1)).filter (fun i => i % s == 0) with hidxdef
  set kept := idx.map (fun i => data.getD i []) with hkeptdef
  have hhead : kept.head? = data.head? := sample_kept_head data s m hm
  have h0mem : 0 ∈ idx := by
    rw [hidxdef]
    exact List.mem_filter.mpr ⟨List.mem_range.mpr (by omega), by simp⟩
  have hidxne : idx ≠ [] := List.ne_nil_of_mem h0mem
  have hkne : kept ≠ [] := by
    rw [hkeptdef]
    intro hc
    rw [List.map_eq_nil_iff] at hc
    exact hidxne hc
  have htake_all :
      (List.range (m + 1)).map (fun i => data.getD i []) = data := by
    rw [← hm, map_getD_range_take data data.length le_rfl, List.take_length]
  have hsub : kept.Sublist data := by
    rw [hkeptdef, hidxdef]
    have h1 := List.Sublist.map (fun i => data.getD i [])
      (List.filter_sublist (p := fun i => i % s == 0) (List.range (m + 1)))
    rwa [htake_all] at h1
  have hgl : data.getLast? = some (data.getLast hne) :=
    List.getLast?_eq_getLast data hne
  have hgld : data.getLastD [] = data.getLast hne := by
    rw [List.getLastD_eq_getLast?, hgl]
    rfl
  have hmlast : data.getD m [] = data.getLast hne := by
    have hm1 : m = data.length - 1 := by omega
    rw [hm1]
    exact getD_last_index data hne
  by_cases hdvd : (m % s == 0) = true
  · have hkeq : idx = ((List.range m).filter fun i => i % s == 0) ++ [m] := by
      rw [hidxdef, sample_idx_split s m, if_pos hdvd]
    have hkmap : kept
        = ((List.range m).filter fun i => i % s == 0).map (fun i => data.getD i [])
          ++ [data.getD m []] := by
      rw [hkeptdef, hkeq, List.map_append]
      rfl
    have hklast : kept.getLastD [] = data.getD m [] := by
      rw [hkmap, List.getLastD_concat]
    have hcond_false : ¬ ((kept.getLastD []).headI ≠ (data.getLastD []).headI) := by
      rw [hklast, hmlast, hgld]
      simp
    rw [if_neg hcond_false]
    refine ⟨hsub, hhead, ?_⟩
    have hklq : kept.getLast? = some (data.getD m []) := by
      rw [hkmap]
      exact List.getLast?_concat _
    rw [hklq, hmlast, ← hgl]
  · have hkeq : idx = ((List.range m).filter fun i => i % s == 0) := by
      rw [hidxdef, sample_idx_split s m, if_neg hdvd, List.append_nil]
    have hsubm : kept.Sublist data.dropLast := by
      have h1 := List.Sublist.map (fun i => data.getD i [])
        (List.filter_sublist (p := fun i => i % s == 0) (List.range m))
      rw [map_getD_range_take data m (by omega)] at h1
      rw [hkeptdef, hkeq, List.dropLast_eq_take,
        show data.length - 1 = m from by omega]
      exact h1
    by_cases hcond : (kept.getLastD []).headI ≠ (data.getLastD []).headI
    · rw [if_pos hcond]
      refine ⟨?_, ?_, ?_⟩
      · rw [hgld]
        have h2 := List.Sublist.append hsubm (List.Sublist.refl [data.getLast hne])
        rwa [List.dropLast_append_getLast hne] at h2
      · rcases hk : kept with _ | ⟨y, ys⟩
        · exact absurd hk hkne
        · rw [hk] at hhead
          rw [List.cons_append]
          simp only [List.head?_cons] at hhead ⊢
          exact hhead
      · rw [List.getLast?_concat, hgld, ← hgl]
    · exfalso
      push_neg at hcond
      have h1 : kept.getLast? = idx.getLast?.map (fun i => data.getD i []) := by
        rw [hkeptdef]
        exact List.getLast?_map _ _
      have h2 : idx.getLast? = some (idx.getLast hidxne) :=
        List.getLast?_eq_getLast _ hidxne
      have h3 : kept.getLast? = some (data.getD (idx.getLast hidxne) []) := by
        rw [h1, h2]
        rfl
      have h4 : kept.getLastD [] = data.getD (idx.getLast hidxne) [] := by
        rw [List.getLastD_eq_getLast?, h3]
        rfl
      have hkmem : idx.getLast hidxne ∈ idx := List.getLast_mem hidxne
      have hforall : ∀ x ∈ idx, x < m := by
        intro x hx
        rw [hkeq] at hx
        exact List.mem_range.mp (List.mem_filter.mp hx).1
      have hklt : idx.getLast hidxne < m := hforall _ hkmem
      have hne2 := pairwise_headI_ne_getD data hdist (idx.getLast hidxne) m
        (by omega) (by omega) hklt
      apply hne2
      rw [h4] at hcond
      rw [hgld, ← hmlast] at hcond
      exact hcond

/-- Witness for the amended C5: five points with distinct timestamps, budget
2: order and both endpoints survive sampling. -/
theorem c5_amended_sample_order_and_endpoints_witness :
    (sampleData [[(0:ℚ)], [1], [2], [3], [4]] 2).Sublist
      [[(0:ℚ)], [1], [2], [3], [4]]
    ∧ (sampleData [[(0:ℚ)], [1], [2], [3], [4]] 2).head?
      = ([[(0:ℚ)], [1], [2], [3], [4]] : List (List ℚ)).head?
    ∧ (sampleData [[(0:ℚ)], [1], [2], [3], [4]] 2).getLast?
      = ([[(0:ℚ)], [1], [2], [3], [4]] : List (List ℚ)).getLast? :=
  c5_amended_sample_order_and_endpoints [[(0:ℚ)], [1], [2], [3], [4]] 2
    (by decide) (by norm_num) (by norm_num [List.pairwise_cons])

/-- C5 fails as stated: with duplicated timestamps the comparison
`sampled[last][0] !== data[last][0]` cannot see that the retained tail is not
the original last point, so the output's last element differs from the
input's. -/
theorem c5_counterexample_duplicate_timestamps :
    (sampleData [[(0:ℚ), 1], [0, 2], [0, 3], [0, 4], [0, 5]] 2).getLast?
      ≠ some [(0:ℚ), 5] := by
  have hlen5 : ([[(0:ℚ), 1], [0, 2], [0, 3], [0, 4], [0, 5]] : List (List ℚ)).length = 5 := rfl
  have hstep : (⌈((5 : ℕ) : ℚ) / ((2 : ℕ) : ℚ)⌉).toNat = 3 :=
    natCeilDiv_eval 5 2 3 (by norm_num) (by norm_num) (by norm_num)
  simp only [sampleData]
  rw [if_neg (by decide), hlen5, hstep]
  decide
